import Mathlib

/-!
Shallow embedding of the ecosystem-map core
(`src/features/EcosystemMap.tsx`, `src/features/Card.tsx`, and the richer
status/search variant concatenated into `src/features/ChipFilterBlock.tsx`).

JavaScript objects with string keys (the per-dimension filter maps, the
count maps and the color map) are modelled as association lists in key
insertion order, which is exactly the enumeration order of `Object.keys`
for non-numeric string keys.  Missing record fields (`p.category?` etc.)
are modelled as `Option`.  JavaScript truthiness is made explicit where
the code relies on it: a string is falsy iff it is empty, a number is
falsy iff it is zero, and an absent object property is falsy.
-/

namespace EcoMap

/-- One `{date, value}` sample of a time-series metric. -/
structure Sample where
  date : String
  value : Int
  deriving Repr, DecidableEq

/-- The `metrics` mapping, restricted to the one series the core reads. -/
structure Metrics where
  github_pushed_at : Option (List Sample)
  deriving Repr, DecidableEq

/-- A project record (`ProjectInfo` in `types`), restricted to the fields
the core logic reads. -/
structure ProjectInfo where
  name : String
  description : String
  category : Option (List String)
  layer : Option (List String)
  target_audience : Option (List String)
  ecosystem : Option (List String)
  readinessTechnology : Option String
  metrics : Option Metrics
  deriving Repr, DecidableEq

/-- A per-dimension filter map `{ [value]: boolean }`, as an association
list in key insertion order. -/
abbrev FilterMap := List (String × Bool)

/-- Models `Object.keys m`. -/
def keysOf (m : FilterMap) : List String := m.map Prod.fst

/-- Models `m[k]` coerced to a boolean: an absent key reads as
`undefined`, which is falsy. -/
def getFlag (m : FilterMap) (k : String) : Bool :=
  match m.find? (fun p => p.1 == k) with
  | some p => p.2
  | none => false

/-- Models `Object.keys(m).filter((k) => m[k])`: the selected values of
a dimension, in key order. -/
def selectedKeys (m : FilterMap) : List String :=
  (m.filter (fun p => p.2)).map Prod.fst

/-- Models `m[k] = false`: overwrite in place when the key exists (JS
objects keep the original key position), append otherwise. -/
def setFalse (m : FilterMap) (k : String) : FilterMap :=
  if m.any (fun p => p.1 == k) then
    m.map (fun p => if p.1 == k then (p.1, false) else p)
  else
    m ++ [(k, false)]

/-- Models `{ ...m, [k]: !m[k] }` from `toggleFilterByCategory`: flip
the flag
in place when the key exists; otherwise `!undefined` is `true`, so the
key is appended with flag `true`. -/
def toggleMap (m : FilterMap) (k : String) : FilterMap :=
  if m.any (fun p => p.1 == k) then
    m.map (fun p => if p.1 == k then (p.1, !p.2) else p)
  else
    m ++ [(k, true)]

/-- The four filter dimensions of the layer variant (`IFilters`). -/
structure IFilters where
  layer : FilterMap
  category : FilterMap
  target_audience : FilterMap
  ecosystem : FilterMap
  deriving Repr, DecidableEq

/-- The `allowedEcosystems` set from `EcosystemMap.tsx`. -/
def allowedEcosystems : List String :=
  ["Acala Network", "Aleph Zero", "Astar Network", "Kusama", "Moonbeam",
   "Polkadot"]

/-- Truthiness of a string in a JS condition: falsy iff empty. -/
def truthyStr (l : String) : Bool := l != ""

/-- Models `allowedEcosystems.has(l)`. -/
def ecoAllowed (l : String) : Bool := allowedEcosystems.contains l

/-- Models `field?.forEach((l) => { if (l) { f[dim][l] = false; } })`:
register every non-empty (truthy) value of one record field. -/
def addValues (m : FilterMap) (field : Option (List String)) : FilterMap :=
  match field with
  | none => m
  | some vs =>
      vs.foldl (fun acc l => if truthyStr l then setFalse acc l else acc) m

/-- The ecosystem branch of the load effect: additionally requires
membership in `allowedEcosystems`. -/
def addEcosystemValues (m : FilterMap) (field : Option (List String)) :
    FilterMap :=
  match field with
  | none => m
  | some vs =>
      vs.foldl
        (fun acc l =>
          if truthyStr l && ecoAllowed l then setFalse acc l else acc) m

/-- The body of the record traversal of the load effect: register one
record's values into all four dimensions. -/
def buildStep (f : IFilters) (c : ProjectInfo) : IFilters :=
  { layer := addValues f.layer c.layer
    category := addValues f.category c.category
    target_audience := addValues f.target_audience c.target_audience
    ecosystem := addEcosystemValues f.ecosystem c.ecosystem }

/-- The facet-derivation loop of the load effect in `EcosystemMap.tsx`
(layer variant): one pass over the records, seeding every facet value
to `false`. -/
def buildFilters (d : List ProjectInfo) : IFilters :=
  d.foldl buildStep
    { layer := [], category := [], target_audience := [], ecosystem := [] }

/-- Truthiness of `field?.find((d) => d === c)`: the chain is truthy iff
the field is present, contains `c`, and `c` is a non-empty string (a
found empty string is itself falsy). -/
def memTruthy (field : Option (List String)) (c : String) : Bool :=
  match field with
  | none => false
  | some vs => vs.contains c && c != ""

/-- Models `selected.every((c) => field?.find((d) => d === c))`: one
dimension's
test in `filterProjects`.  Note the AND over the selected values. -/
def dimEvery (field : Option (List String)) (selected : List String) : Bool :=
  selected.all (fun c => memTruthy field c)

/-- Models `filterProjects` from `EcosystemMap.tsx` (layer variant). -/
def filterProjects (filters : IFilters) (projects : List ProjectInfo) :
    List ProjectInfo :=
  let category := selectedKeys filters.category
  let layer := selectedKeys filters.layer
  let audience := selectedKeys filters.target_audience
  let ecosystem := selectedKeys filters.ecosystem
  projects.filter
    (fun p =>
      dimEvery p.category category && dimEvery p.layer layer &&
        dimEvery p.target_audience audience &&
        dimEvery p.ecosystem ecosystem)

/-- The filter dimensions (`keyof IFilters`) of the layer variant. -/
inductive TCategory where
  | category
  | layer
  | target_audience
  | ecosystem
  deriving Repr, DecidableEq

/-- Read one dimension's map out of the filter state. -/
def dimMap (fs : IFilters) : TCategory → FilterMap
  | TCategory.category => fs.category
  | TCategory.layer => fs.layer
  | TCategory.target_audience => fs.target_audience
  | TCategory.ecosystem => fs.ecosystem

/-- Models `toggleFilterByCategory(type, key)` from `EcosystemMap.tsx`. -/
def toggleFilterByCategory (fs : IFilters) (type : TCategory) (key : String) :
    IFilters :=
  match type with
  | TCategory.category => { fs with category := toggleMap fs.category key }
  | TCategory.layer => { fs with layer := toggleMap fs.layer key }
  | TCategory.target_audience =>
      { fs with target_audience := toggleMap fs.target_audience key }
  | TCategory.ecosystem => { fs with ecosystem := toggleMap fs.ecosystem key }

/-- A color map `{ [value]: string }`, as an association list in key
insertion order. -/
abbrev ColorMap := List (String × String)

/-- Models `c[k] = v` on the color object: overwrite in place, else
append. -/
def setColor (m : ColorMap) (k v : String) : ColorMap :=
  if m.any (fun p => p.1 == k) then
    m.map (fun p => if p.1 == k then (p.1, v) else p)
  else
    m ++ [(k, v)]

/-- Models `colorMap[k]` (`undefined`, modelled `none`, when absent). -/
def lookupColor (m : ColorMap) (k : String) : Option String :=
  (m.find? (fun p => p.1 == k)).map Prod.snd

/-- Models `rgb.join(",")` on an RGB triple. -/
def joinComma (rgb : List Nat) : String :=
  String.intercalate "," (rgb.map toString)

/-- Models `colors[idx % colors.length] ?? [33, 150, 243]`: the palette
entry at
the wrapped index, with the code's literal fallback (reached only when
the palette is empty, since otherwise `idx % length` is in range). -/
def colorAt (palette : List (List Nat)) (idx : Nat) : List Nat :=
  if palette.length = 0 then [33, 150, 243]
  else palette.getD (idx % palette.length) [33, 150, 243]

/-- The color traversal sequence of the layer variant's load effect:
`[...Object.keys(f.category), ...Object.keys(f.layer),
...Object.keys(f.target_audience), ...Object.keys(f.ecosystem)]`. -/
def colorTraversal (f : IFilters) : List String :=
  keysOf f.category ++ keysOf f.layer ++ keysOf f.target_audience ++
    keysOf f.ecosystem

/-- Models `ks.forEach((k, idx) => { c[k] = (...).join(","); })`
starting from index `start` and accumulator `m`. -/
def assignColors (palette : List (List Nat)) :
    Nat → ColorMap → List String → ColorMap
  | _, m, [] => m
  | start, m, k :: ks =>
      assignColors palette (start + 1)
        (setColor m k (joinComma (colorAt palette start))) ks

/-- The color-map construction of the load effect. -/
def buildColorMap (palette : List (List Nat)) (f : IFilters) : ColorMap :=
  assignColors palette 0 [] (colorTraversal f)

/-- The `ACTIVITY_INDICATORS` labels of `Card.tsx`. -/
def activeLabel : String := "Active 🟢"

/-- Label `ACTIVITY_INDICATORS.moderate`. -/
def moderateLabel : String := "Moderate 🟡"

/-- Label `ACTIVITY_INDICATORS.inactive`. -/
def inactiveLabel : String := "Inactive 💤"

/-- Label `ACTIVITY_INDICATORS.default`. -/
def unknownLabel : String := "Unknown ❔"

/-- Largest magnitude in milliseconds a JavaScript `Date` represents;
beyond it `new Date(ms).getTime()` is `NaN`. -/
def maxDateMs : Int := 8640000000000000

/-- Models `getActivityIndicator` from `Card.tsx`.  `githubPushedAt` is
in epoch
seconds (`none` for `undefined`); `nowMs` is `today.getTime()` in epoch
milliseconds.  `!githubPushedAt` is true for `undefined` and for the
falsy number `0`; an out-of-range instant makes the `Date` invalid
(`NaN` check); `Math.floor` of the quotient is floored division. -/
def getActivityIndicator (githubPushedAt : Option Int) (nowMs : Int) :
    String :=
  match githubPushedAt with
  | none => unknownLabel
  | some t =>
    if t = 0 then unknownLabel
    else if t * 1000 < -maxDateMs ∨ maxDateMs < t * 1000 then unknownLabel
    else
      let diffDays := Int.fdiv (nowMs - t * 1000) 86400000
      if diffDays ≤ 90 then activeLabel
      else if diffDays ≤ 180 then moderateLabel
      else inactiveLabel

/-- Models `Array.prototype.pop`: returns the last element (or
`undefined`) and
the array as left mutated (last element removed; an empty array is
unchanged). -/
def popArray {α : Type} (xs : List α) : Option α × List α :=
  (xs.getLast?, xs.dropLast)

/-- Models the expression `card.metrics?.github_pushed_at?.pop()?.value`
in
`Card.tsx`, together with the record's metrics as the `pop` call leaves
them: the read is not observation-only. -/
def cardActivityRead (m : Option Metrics) : Option Int × Option Metrics :=
  match m with
  | none => (none, none)
  | some mm =>
    match mm.github_pushed_at with
    | none => (none, some mm)
    | some xs =>
        ((popArray xs).1.map Sample.value,
          some { github_pushed_at := some (popArray xs).2 })

/-- The filter dimensions of the richer status variant (the second
`EcosystemMap` in `ChipFilterBlock.tsx`): `layer` is replaced by
`status`, fed from `readiness.technology`. -/
structure IFiltersS where
  category : FilterMap
  status : FilterMap
  target_audience : FilterMap
  ecosystem : FilterMap
  deriving Repr, DecidableEq

/-- A per-dimension occurrence-count map, in key insertion order. -/
abbrev CountMap := List (String × Nat)

/-- Models `m[k] = (m[k] ?? 0) + 1`. -/
def incrCount (m : CountMap) (k : String) : CountMap :=
  if m.any (fun p => p.1 == k) then
    m.map (fun p => if p.1 == k then (p.1, p.2 + 1) else p)
  else
    m ++ [(k, 1)]

/-- The count maps of the status variant's load effect. -/
structure CountsS where
  category : CountMap
  status : CountMap
  target_audience : CountMap
  ecosystem : CountMap
  deriving Repr, DecidableEq

/-- Register one record field into a filter map and its count map. -/
def addValuesCounted (m : FilterMap) (cm : CountMap)
    (field : Option (List String)) : FilterMap × CountMap :=
  match field with
  | none => (m, cm)
  | some vs =>
      vs.foldl
        (fun acc l =>
          if truthyStr l then (setFalse acc.1 l, incrCount acc.2 l) else acc)
        (m, cm)

/-- The ecosystem branch: also requires allow-list membership. -/
def addEcosystemValuesCounted (m : FilterMap) (cm : CountMap)
    (field : Option (List String)) : FilterMap × CountMap :=
  match field with
  | none => (m, cm)
  | some vs =>
      vs.foldl
        (fun acc l =>
          if truthyStr l && ecoAllowed l then
            (setFalse acc.1 l, incrCount acc.2 l)
          else acc)
        (m, cm)

/-- The status branch: `if (c?.readiness?.technology) { ... }` — truthy,
so the empty string is skipped as well. -/
def addStatusCounted (m : FilterMap) (cm : CountMap)
    (tech : Option String) : FilterMap × CountMap :=
  match tech with
  | none => (m, cm)
  | some t => if truthyStr t then (setFalse m t, incrCount cm t) else (m, cm)

/-- The facet/count derivation loop of the status variant's load effect:
one pass over the records, filling `f` and `countMap` together. -/
def buildFiltersCountsS (d : List ProjectInfo) : IFiltersS × CountsS :=
  d.foldl
    (fun fc c =>
      let pc := addValuesCounted fc.1.category fc.2.category c.category
      let ps := addStatusCounted fc.1.status fc.2.status
        c.readinessTechnology
      let pa := addValuesCounted fc.1.target_audience fc.2.target_audience
        c.target_audience
      let pe := addEcosystemValuesCounted fc.1.ecosystem fc.2.ecosystem
        c.ecosystem
      ({ category := pc.1, status := ps.1, target_audience := pa.1,
         ecosystem := pe.1 },
       { category := pc.2, status := ps.2, target_audience := pa.2,
         ecosystem := pe.2 }))
    (⟨[], [], [], []⟩, ⟨[], [], [], []⟩)

/-- The color traversal sequence of the status variant's load effect. -/
def colorTraversalS (f : IFiltersS) : List String :=
  keysOf f.category ++ keysOf f.status ++ keysOf f.target_audience ++
    keysOf f.ecosystem

/-- The color-map construction of the status variant's load effect. -/
def buildColorMapS (palette : List (List Nat)) (f : IFiltersS) : ColorMap :=
  assignColors palette 0 [] (colorTraversalS f)

/-- Models `String.prototype.toLowerCase`, character-wise, at the
character-list level (kernel-computable). -/
def jsLower (s : String) : String := ⟨s.data.map Char.toLower⟩

/-- Models `String.prototype.trim`: drop whitespace from both ends, at
the character-list level (kernel-computable). -/
def jsTrim (s : String) : String :=
  ⟨((s.data.dropWhile Char.isWhitespace).reverse.dropWhile
      Char.isWhitespace).reverse⟩

/-- Tests whether `needle` occurs as a contiguous run inside the
character list. -/
def isInfixList (needle : List Char) : List Char → Bool
  | [] => needle.isEmpty
  | c :: t => needle.isPrefixOf (c :: t) || isInfixList needle t

/-- Models `haystack.includes(needle)` on strings: substring
containment. -/
def strIncludes (haystack needle : String) : Bool :=
  isInfixList needle.toList haystack.toList

/-- Models `filterProjects` of the status variant: status compares
`p.readiness?.technology === c` (strict equality on the single-valued
field), and a non-empty trimmed lower-cased query must be a substring of
the lower-cased name or description. -/
def filterProjectsS (filters : IFiltersS) (query : String)
    (projects : List ProjectInfo) : List ProjectInfo :=
  let category := selectedKeys filters.category
  let status := selectedKeys filters.status
  let audience := selectedKeys filters.target_audience
  let ecosystem := selectedKeys filters.ecosystem
  let search := jsLower (jsTrim query)
  projects.filter
    (fun p =>
      dimEvery p.category category &&
        status.all (fun c => p.readinessTechnology == some c) &&
        dimEvery p.target_audience audience &&
        dimEvery p.ecosystem ecosystem &&
        (search == "" || strIncludes (jsLower p.name) search ||
          strIncludes (jsLower p.description) search))

/-- Modelled from the spec: the palette `colors` lives in
`src/utils/helper.ts`, which is not among the provided sources.  Per
§4.2 it is a fixed finite palette of RGB triples ("maps every facet
value … to a visually distinct color"), so the modelled entries are
pairwise distinct; the code's fallback literal `[33, 150, 243]` is kept
as one entry. -/
def colorsPalette : List (List Nat) :=
  [[244, 67, 54], [33, 150, 243], [76, 175, 80], [255, 193, 7],
   [156, 39, 176], [0, 188, 212], [255, 87, 34], [121, 85, 72],
   [63, 81, 175], [205, 220, 57]]

/-- Spec-side predicate (amended C1): a record's value set for a
dimension must contain every selected value — AND within a dimension. -/
def matchesDimSuperset (field : Option (List String)) (selected : List String) :
    Prop :=
  ∀ c ∈ selected, ∃ vs, field = some vs ∧ c ∈ vs

/-- Spec-side: append a value unless it is already present. -/
def insertNew (acc : List String) (l : String) : List String :=
  if l ∈ acc then acc else acc ++ [l]

/-- Spec-side: the distinct values of a list in first-occurrence order. -/
def firstOccList (xs : List String) : List String := xs.foldl insertNew []

/-- Spec-side: the truthy `category` values of the record sequence, in
traversal order. -/
def catVals (d : List ProjectInfo) : List String :=
  (d.map (fun r => (r.category.getD []).filter truthyStr)).flatten

/-- Spec-side: the truthy `layer` values of the record sequence. -/
def layerVals (d : List ProjectInfo) : List String :=
  (d.map (fun r => (r.layer.getD []).filter truthyStr)).flatten

/-- Spec-side: the truthy `target_audience` values of the record
sequence. -/
def audVals (d : List ProjectInfo) : List String :=
  (d.map (fun r => (r.target_audience.getD []).filter truthyStr)).flatten

/-- Spec-side: the truthy, allow-listed `ecosystem` values of the record
sequence. -/
def ecoVals (d : List ProjectInfo) : List String :=
  (d.map
      (fun r =>
        (r.ecosystem.getD []).filter (fun l => truthyStr l && ecoAllowed l))).flatten

/-- A concrete record carrying category `DeFi`. -/
def recDeFi : ProjectInfo :=
  { name := "Acala", description := "DeFi platform",
    category := some ["DeFi"], layer := some ["Layer-3"],
    target_audience := some ["Startup"], ecosystem := some ["Polkadot"],
    readinessTechnology := some "In production", metrics := none }

/-- A concrete record carrying category `EVM` and an ecosystem value
outside the allow-list. -/
def recEVM : ProjectInfo :=
  { name := "Moonbeam", description := "EVM compatible chain",
    category := some ["EVM"], layer := some ["Layer-1"],
    target_audience := some ["Dev teams"],
    ecosystem := some ["Moonbeam", "Ethereum"],
    readinessTechnology := some "Connected to Relay chain", metrics := none }

/-- A concrete filter state with two selected categories. -/
def fsTwoCats : IFilters :=
  { layer := [], category := [("DeFi", true), ("EVM", true)],
    target_audience := [], ecosystem := [] }

/-- A concrete filter state with one known, unselected category key. -/
def fsOneCat : IFilters :=
  { layer := [], category := [("DeFi", false)], target_audience := [],
    ecosystem := [] }

/-- An empty status-variant filter state. -/
def fsSEmpty : IFiltersS :=
  { category := [], status := [], target_audience := [], ecosystem := [] }

/-- A concrete two-sample metric series. -/
def twoSamples : List Sample :=
  [{ date := "2024-01-01", value := 1704067200 },
   { date := "2025-06-01", value := 1748736000 }]

/-! ### Helper lemmas -/

/-- Flipping the flag at `k` does not change which keys are present. -/
theorem any_key_map_flip (m : FilterMap) (k : String)
    (g : String × Bool → String × Bool)
    (hg : ∀ p, (g p).1 = p.1) :
    (m.map g).any (fun p => p.1 == k) = m.any (fun p => p.1 == k) := by
  induction m with
  | nil => rfl
  | cons h t ih =>
      simp only [List.map_cons, List.any_cons, ih, hg]

/-- Membership in `keysOf` matches the `any` test the code performs. -/
theorem any_key_eq_true_iff (m : FilterMap) (k : String) :
    m.any (fun p => p.1 == k) = true ↔ k ∈ keysOf m := by
  rw [List.any_eq_true]
  constructor
  · rintro ⟨p, hp, he⟩
    exact List.mem_map.mpr ⟨p, hp, by simpa using he⟩
  · intro h
    obtain ⟨p, hp, he⟩ := List.mem_map.mp h
    exact ⟨p, hp, by simpa using he⟩

/-- Toggling a present key twice restores the map. -/
theorem toggleMap_toggleMap_of_mem (m : FilterMap) (k : String)
    (h : k ∈ keysOf m) : toggleMap (toggleMap m k) k = m := by
  have hany : m.any (fun p => p.1 == k) = true :=
    (any_key_eq_true_iff m k).mpr h
  have hg : ∀ p : String × Bool,
      ((fun p : String × Bool => if p.1 == k then (p.1, !p.2) else p) p).1
        = p.1 := by
    intro p
    by_cases hp : p.1 == k <;> simp [hp]
  unfold toggleMap
  rw [if_pos hany,
    if_pos (by rw [any_key_map_flip m k _ hg]; exact hany),
    List.map_map]
  have hid : ∀ p ∈ m,
      ((fun p : String × Bool => if p.1 == k then (p.1, !p.2) else p) ∘
        (fun p : String × Bool => if p.1 == k then (p.1, !p.2) else p)) p
        = p := by
    intro p _
    by_cases hp : p.1 == k <;> simp [Function.comp, hp]
  calc m.map _ = m.map id := List.map_congr_left hid
  _ = m := List.map_id m

/-! ### C8 — toggle idempotence on known keys -/

/-- C8: for every dimension `D` and facet value `v` that is a key of
`D`'s filter map, toggling `v` twice restores the filter state exactly,
and therefore the query result. -/
theorem toggle_twice_restores (fs : IFilters) (type : TCategory) (k : String)
    (ps : List ProjectInfo) (h : k ∈ keysOf (dimMap fs type)) :
    toggleFilterByCategory (toggleFilterByCategory fs type k) type k = fs ∧
      filterProjects
          (toggleFilterByCategory (toggleFilterByCategory fs type k) type k)
          ps
        = filterProjects fs ps := by
  have hmain :
      toggleFilterByCategory (toggleFilterByCategory fs type k) type k = fs := by
    cases type <;>
      simp only [toggleFilterByCategory, dimMap] at h ⊢ <;>
      rw [toggleMap_toggleMap_of_mem _ _ h]
  exact ⟨hmain, by rw [hmain]⟩

/-- Witness for C8 at a concrete filter state and dataset. -/
theorem toggle_twice_restores_witness :
    toggleFilterByCategory
          (toggleFilterByCategory fsOneCat TCategory.category "DeFi")
          TCategory.category "DeFi"
        = fsOneCat ∧
      filterProjects
          (toggleFilterByCategory
            (toggleFilterByCategory fsOneCat TCategory.category "DeFi")
            TCategory.category "DeFi")
          [recDeFi, recEVM]
        = filterProjects fsOneCat [recDeFi, recEVM] :=
  toggle_twice_restores fsOneCat TCategory.category "DeFi" [recDeFi, recEVM]
    (by decide)

/-! ### C5 — determinism of facet derivation and color assignment -/

/-- C5: loading the same record sequence twice yields identical facet
value sets, identical per-value counts, and an identical color map, in
both UI variants — the derivation is a pure function of the records. -/
theorem load_deterministic (palette : List (List Nat))
    (d₁ d₂ : List ProjectInfo) (h : d₁ = d₂) :
    buildFiltersCountsS d₁ = buildFiltersCountsS d₂ ∧
      buildColorMapS palette (buildFiltersCountsS d₁).1
        = buildColorMapS palette (buildFiltersCountsS d₂).1 ∧
      buildFilters d₁ = buildFilters d₂ ∧
      buildColorMap palette (buildFilters d₁)
        = buildColorMap palette (buildFilters d₂) := by
  subst h
  exact ⟨rfl, rfl, rfl, rfl⟩

/-- Witness for C5 at a concrete record sequence and palette. -/
theorem load_deterministic_witness :
    buildFiltersCountsS [recDeFi, recEVM] = buildFiltersCountsS [recDeFi, recEVM] ∧
      buildColorMapS colorsPalette (buildFiltersCountsS [recDeFi, recEVM]).1
        = buildColorMapS colorsPalette (buildFiltersCountsS [recDeFi, recEVM]).1 ∧
      buildFilters [recDeFi, recEVM] = buildFilters [recDeFi, recEVM] ∧
      buildColorMap colorsPalette (buildFilters [recDeFi, recEVM])
        = buildColorMap colorsPalette (buildFilters [recDeFi, recEVM]) :=
  load_deterministic colorsPalette [recDeFi, recEVM] [recDeFi, recEVM] rfl

/-! ### C9 — the activity read mutates the metric series -/

/-- C9: the card's activity read goes through `Array.prototype.pop`,
which removes the last sample: after the read the series is one sample
shorter, and the value read is the last sample's value. -/
theorem card_read_pops_series (xs : List Sample) (h : xs ≠ []) :
    (cardActivityRead (some { github_pushed_at := some xs })).2
        = some { github_pushed_at := some xs.dropLast } ∧
      xs.dropLast.length < xs.length ∧
      (cardActivityRead (some { github_pushed_at := some xs })).1
        = xs.getLast?.map Sample.value := by
  refine ⟨rfl, ?_, rfl⟩
  rw [List.length_dropLast]
  exact Nat.sub_lt (List.length_pos.mpr h) Nat.one_pos

/-- Witness for C9 on a concrete two-sample series. -/
theorem card_read_pops_series_witness :
    (cardActivityRead (some { github_pushed_at := some twoSamples })).2
        = some { github_pushed_at := some twoSamples.dropLast } ∧
      twoSamples.dropLast.length < twoSamples.length ∧
      (cardActivityRead (some { github_pushed_at := some twoSamples })).1
        = twoSamples.getLast?.map Sample.value :=
  card_read_pops_series twoSamples (by decide)

/-! ### C10 — a zero timestamp is treated as missing -/

/-- C10: a most-recent sample value of exactly `0` (the Unix epoch, a
valid instant far more than 180 days in the past) makes the classifier
return `unknown` rather than `inactive`: the falsy check `!githubPushedAt`
treats the number `0` as absent. -/
theorem zero_timestamp_is_unknown :
    (∀ nowMs : Int, getActivityIndicator (some 0) nowMs = unknownLabel) ∧
      unknownLabel ≠ inactiveLabel ∧
      180 < Int.fdiv (1760140800000 - 0 * 1000) 86400000 := by
  refine ⟨fun nowMs => rfl, by decide, by decide⟩

/-! ### C2 — toggle on an unknown facet value -/

/-- C2 counterexample: toggling an unknown value is not a no-op: at the
concrete state `fsOneCat` (keys exactly `{DeFi}`), `toggle(category, X)`
changes the filter state and shrinks the visible result set. -/
theorem toggle_unknown_changes_state :
    "X" ∉ keysOf fsOneCat.category ∧
      toggleFilterByCategory fsOneCat TCategory.category "X" ≠ fsOneCat ∧
      filterProjects (toggleFilterByCategory fsOneCat TCategory.category "X")
          [recDeFi]
        ≠ filterProjects fsOneCat [recDeFi] := by
  decide

/-- C2 (amended): toggling a value `v` that is not a key of dimension
`D`'s map never throws, but it is not a no-op: it appends `v` to `D`'s
map with flag `true` (selecting it) and leaves the other dimensions
unchanged. -/
theorem toggle_unknown_appends (fs : IFilters) (type : TCategory) (k : String)
    (h : k ∉ keysOf (dimMap fs type)) :
    dimMap (toggleFilterByCategory fs type k) type
        = dimMap fs type ++ [(k, true)] ∧
      ∀ t : TCategory, t ≠ type →
        dimMap (toggleFilterByCategory fs type k) t = dimMap fs t := by
  have hany : ¬ (dimMap fs type).any (fun p => p.1 == k) = true := fun hc =>
    h ((any_key_eq_true_iff _ k).mp hc)
  constructor
  · cases type <;>
      simp only [toggleFilterByCategory, dimMap] at hany ⊢ <;>
      rw [toggleMap, if_neg hany]
  · intro t ht
    cases type <;> cases t <;> first | exact absurd rfl ht | rfl

/-- Witness for the amended C2 at a concrete state and unknown key. -/
theorem toggle_unknown_appends_witness :
    dimMap (toggleFilterByCategory fsOneCat TCategory.category "X")
          TCategory.category
        = dimMap fsOneCat TCategory.category ++ [("X", true)] ∧
      ∀ t : TCategory, t ≠ TCategory.category →
        dimMap (toggleFilterByCategory fsOneCat TCategory.category "X") t
          = dimMap fsOneCat t :=
  toggle_unknown_appends fsOneCat TCategory.category "X" (by decide)

/-! ### C3 — activity classification buckets -/

/-- C3 counterexample: a present, parseable timestamp of exactly `0`
(the Unix epoch) lies more than 180 whole days before the evaluation
instant, yet the classifier returns `unknown`, not `inactive` as the
claim's bucket rule states. -/
theorem activity_epoch_counterexample :
    getActivityIndicator (some 0) 1760140800000 = unknownLabel ∧
      unknownLabel ≠ inactiveLabel ∧
      180 < Int.fdiv (1760140800000 - 0 * 1000) 86400000 :=
  ⟨rfl, by decide, by decide⟩

/-- C3 (amended): for every present timestamp `t` that is non-zero (the
code's falsy check treats `0` as missing) and within the `Date` range,
the classifier computes whole elapsed days by floored division and
returns `active` iff days ≤ 90, `moderate` iff 90 < days ≤ 180 and
`inactive` iff days > 180; a missing timestamp yields `unknown`. -/
theorem activity_buckets (t nowMs : Int) (h0 : t ≠ 0)
    (hlo : -maxDateMs ≤ t * 1000) (hhi : t * 1000 ≤ maxDateMs) :
    (getActivityIndicator (some t) nowMs = activeLabel ↔
        Int.fdiv (nowMs - t * 1000) 86400000 ≤ 90) ∧
      (getActivityIndicator (some t) nowMs = moderateLabel ↔
        (90 < Int.fdiv (nowMs - t * 1000) 86400000 ∧
          Int.fdiv (nowMs - t * 1000) 86400000 ≤ 180)) ∧
      (getActivityIndicator (some t) nowMs = inactiveLabel ↔
        180 < Int.fdiv (nowMs - t * 1000) 86400000) ∧
      getActivityIndicator none nowMs = unknownLabel := by
  have hcond : ¬ (t * 1000 < -maxDateMs ∨ maxDateMs < t * 1000) := by
    rintro (hc | hc)
    · exact absurd hlo (not_le.mpr hc)
    · exact absurd hhi (not_le.mpr hc)
  have hsome : getActivityIndicator (some t) nowMs =
      (if Int.fdiv (nowMs - t * 1000) 86400000 ≤ 90 then activeLabel
        else if Int.fdiv (nowMs - t * 1000) 86400000 ≤ 180 then moderateLabel
        else inactiveLabel) := by
    simp only [getActivityIndicator, if_neg h0, if_neg hcond]
  rw [hsome]
  by_cases h90 : Int.fdiv (nowMs - t * 1000) 86400000 ≤ 90
  · rw [if_pos h90]
    exact ⟨iff_of_true rfl h90,
      iff_of_false (by decide) (fun hc => absurd h90 (not_le.mpr hc.1)),
      iff_of_false (by decide) (by omega), rfl⟩
  · by_cases h180 : Int.fdiv (nowMs - t * 1000) 86400000 ≤ 180
    · rw [if_neg h90, if_pos h180]
      exact ⟨iff_of_false (by decide) h90,
        iff_of_true rfl ⟨by omega, h180⟩,
        iff_of_false (by decide) (by omega), rfl⟩
    · rw [if_neg h90, if_neg h180]
      exact ⟨iff_of_false (by decide) (by omega),
        iff_of_false (by decide) (by omega),
        iff_of_true rfl (by omega), rfl⟩

/-- Witness for the amended C3: a push 90 days in the future of the
evaluation instant is `active`. -/
theorem activity_buckets_witness :
    (getActivityIndicator (some 7776000) 0 = activeLabel ↔
        Int.fdiv (0 - 7776000 * 1000) 86400000 ≤ 90) ∧
      (getActivityIndicator (some 7776000) 0 = moderateLabel ↔
        (90 < Int.fdiv (0 - 7776000 * 1000) 86400000 ∧
          Int.fdiv (0 - 7776000 * 1000) 86400000 ≤ 180)) ∧
      (getActivityIndicator (some 7776000) 0 = inactiveLabel ↔
        180 < Int.fdiv (0 - 7776000 * 1000) 86400000) ∧
      getActivityIndicator none 0 = unknownLabel :=
  activity_buckets 7776000 0 (by decide) (by decide) (by decide)

/-! ### C1 — semantics within a filter dimension -/

/-- A dimension's `every` test holds iff the record's value set contains
every selected value, provided the empty string is not selected. -/
theorem dimEvery_eq_true_iff (field : Option (List String))
    (sel : List String) (h : "" ∉ sel) :
    dimEvery field sel = true ↔ matchesDimSuperset field sel := by
  unfold dimEvery matchesDimSuperset memTruthy
  rw [List.all_eq_true]
  constructor
  · intro hall c hc
    have hcall := hall c hc
    cases hf : field with
    | none => rw [hf] at hcall; exact (Bool.false_ne_true hcall).elim
    | some vs =>
        rw [hf] at hcall
        rw [Bool.and_eq_true] at hcall
        exact ⟨vs, rfl, by simpa using hcall.1⟩
  · intro hm c hc
    obtain ⟨vs, hf, hv⟩ := hm c hc
    rw [hf]
    rw [Bool.and_eq_true]
    refine ⟨by simpa using hv, ?_⟩
    have : c ≠ "" := fun hcne => h (hcne ▸ hc)
    simpa using this

/-- C1 counterexample: with categories `DeFi` and `EVM` both selected,
the record `recDeFi` — whose category set intersects the selection —
is excluded: the code takes AND, not OR, within a dimension, so a
second selected value narrows rather than widens. -/
theorem filter_or_within_dimension_false :
    "DeFi" ∈ selectedKeys fsTwoCats.category ∧
      "EVM" ∈ selectedKeys fsTwoCats.category ∧
      recDeFi.category = some ["DeFi"] ∧
      filterProjects fsTwoCats [recDeFi] = [] := by
  decide

/-- C1 (amended): for every dimension with at least one selected value,
a record passes iff its value set for that dimension contains every
selected value (AND within a dimension — a second selection can only
narrow); a dimension with zero selections imposes no constraint, and
the dimensions combine conjunctively.  Stated for selections not
containing the empty string (facet values are non-empty by
construction). -/
theorem filter_and_within_dimension (fs : IFilters) (ps : List ProjectInfo)
    (p : ProjectInfo)
    (hc : "" ∉ selectedKeys fs.category)
    (hl : "" ∉ selectedKeys fs.layer)
    (ha : "" ∉ selectedKeys fs.target_audience)
    (he : "" ∉ selectedKeys fs.ecosystem) :
    p ∈ filterProjects fs ps ↔
      p ∈ ps ∧ matchesDimSuperset p.category (selectedKeys fs.category) ∧
        matchesDimSuperset p.layer (selectedKeys fs.layer) ∧
        matchesDimSuperset p.target_audience
          (selectedKeys fs.target_audience) ∧
        matchesDimSuperset p.ecosystem (selectedKeys fs.ecosystem) := by
  simp only [filterProjects, List.mem_filter, Bool.and_eq_true,
    dimEvery_eq_true_iff _ _ hc, dimEvery_eq_true_iff _ _ hl,
    dimEvery_eq_true_iff _ _ ha, dimEvery_eq_true_iff _ _ he]
  tauto

/-- Witness for the amended C1 at a concrete state and record. -/
theorem filter_and_within_dimension_witness :
    recDeFi ∈ filterProjects fsTwoCats [recDeFi, recEVM] ↔
      recDeFi ∈ [recDeFi, recEVM] ∧
        matchesDimSuperset recDeFi.category
          (selectedKeys fsTwoCats.category) ∧
        matchesDimSuperset recDeFi.layer (selectedKeys fsTwoCats.layer) ∧
        matchesDimSuperset recDeFi.target_audience
          (selectedKeys fsTwoCats.target_audience) ∧
        matchesDimSuperset recDeFi.ecosystem
          (selectedKeys fsTwoCats.ecosystem) :=
  filter_and_within_dimension fsTwoCats [recDeFi, recEVM] recDeFi
    (by decide) (by decide) (by decide) (by decide)

/-! ### C7 — free-text search -/

/-- C7: with a non-empty trimmed lower-cased query, a record appears in
the status variant's result only if the query is a substring of its
lower-cased name or description; with an empty trimmed query the search
imposes no constraint: the result is exactly the dimension-only
filter. -/
theorem search_constraint (fs : IFiltersS) (q : String)
    (ps : List ProjectInfo) (p : ProjectInfo) :
    (jsLower (jsTrim q) ≠ "" → p ∈ filterProjectsS fs q ps →
        (strIncludes (jsLower p.name) (jsLower (jsTrim q)) ||
          strIncludes (jsLower p.description) (jsLower (jsTrim q))) = true) ∧
      (jsTrim q = "" → filterProjectsS fs q ps =
        ps.filter
          (fun r =>
            dimEvery r.category (selectedKeys fs.category) &&
              (selectedKeys fs.status).all
                (fun c => r.readinessTechnology == some c) &&
              dimEvery r.target_audience (selectedKeys fs.target_audience) &&
              dimEvery r.ecosystem (selectedKeys fs.ecosystem))) := by
  constructor
  · intro hq hp
    simp only [filterProjectsS, List.mem_filter, Bool.and_eq_true] at hp
    have hsearch := hp.2.2
    rw [Bool.or_eq_true, Bool.or_eq_true] at hsearch
    rcases hsearch with (hemp | h1) | h2
    · exact absurd (by simpa using hemp) hq
    · rw [Bool.or_eq_true]; exact Or.inl h1
    · rw [Bool.or_eq_true]; exact Or.inr h2
  · intro hq
    have hlow : jsLower (jsTrim q) = "" := by rw [hq]; rfl
    simp only [filterProjectsS, hlow, beq_self_eq_true, Bool.true_or,
      Bool.and_true]

/-- Witness for C7: the query `" MOON "` filters to records whose
lower-cased name or description contains `"moon"`. -/
theorem search_constraint_witness :
    (strIncludes (jsLower recEVM.name) (jsLower (jsTrim " MOON ")) ||
        strIncludes (jsLower recEVM.description)
          (jsLower (jsTrim " MOON "))) = true :=
  (search_constraint fsSEmpty " MOON " [recEVM] recEVM).1 (by decide)
    (by decide)

/-! ### Key-order lemmas for the facet maps -/

/-- Seeding a key to `false` inserts it at the end unless present. -/
theorem keysOf_setFalse (m : FilterMap) (k : String) :
    keysOf (setFalse m k) = insertNew (keysOf m) k := by
  unfold setFalse insertNew
  by_cases h : k ∈ keysOf m
  · rw [if_pos ((any_key_eq_true_iff m k).mpr h), if_pos h]
    unfold keysOf
    rw [List.map_map]
    exact List.map_congr_left
      (fun p _ => by by_cases hp : p.1 = k <;> simp [hp])
  · rw [if_neg (fun hc => h ((any_key_eq_true_iff m k).mp hc)), if_neg h]
    unfold keysOf
    rw [List.map_append]
    rfl

/-- Folding conditional seeding over a value list builds the key list by
first-occurrence insertion of the values passing the condition. -/
theorem keysOf_foldl_setFalse (c : String → Bool) :
    ∀ (vs : List String) (m : FilterMap),
      keysOf (vs.foldl (fun acc l => if c l then setFalse acc l else acc) m)
        = (vs.filter c).foldl insertNew (keysOf m)
  | [], _ => rfl
  | l :: t, m => by
      by_cases h : c l
      · rw [List.foldl_cons, if_pos h,
          keysOf_foldl_setFalse c t (setFalse m l), keysOf_setFalse,
          List.filter_cons_of_pos h, List.foldl_cons]
      · rw [List.foldl_cons, if_neg h, keysOf_foldl_setFalse c t m,
          List.filter_cons_of_neg (by simpa using h)]

/-- Key list of `addValues`: first-occurrence insertion of the truthy
values. -/
theorem keysOf_addValues (m : FilterMap) (field : Option (List String)) :
    keysOf (addValues m field)
      = (((field.getD []).filter truthyStr).foldl insertNew (keysOf m)) := by
  cases field with
  | none => rfl
  | some vs => exact keysOf_foldl_setFalse truthyStr vs m

/-- Key list of `addEcosystemValues`: first-occurrence insertion of the
truthy, allow-listed values. -/
theorem keysOf_addEcosystemValues (m : FilterMap)
    (field : Option (List String)) :
    keysOf (addEcosystemValues m field)
      = (((field.getD []).filter (fun l => truthyStr l && ecoAllowed l)).foldl
          insertNew (keysOf m)) := by
  cases field with
  | none => rfl
  | some vs => exact keysOf_foldl_setFalse _ vs m

/-- The `category` component of the record fold only depends on the
`category` fields. -/
theorem foldl_buildStep_category :
    ∀ (d : List ProjectInfo) (f : IFilters),
      (d.foldl buildStep f).category
        = d.foldl (fun m c => addValues m c.category) f.category
  | [], _ => rfl
  | r :: t, f => foldl_buildStep_category t (buildStep f r)

/-- The `layer` component of the record fold only depends on the `layer`
fields. -/
theorem foldl_buildStep_layer :
    ∀ (d : List ProjectInfo) (f : IFilters),
      (d.foldl buildStep f).layer
        = d.foldl (fun m c => addValues m c.layer) f.layer
  | [], _ => rfl
  | r :: t, f => foldl_buildStep_layer t (buildStep f r)

/-- The `target_audience` component of the record fold only depends on
the `target_audience` fields. -/
theorem foldl_buildStep_audience :
    ∀ (d : List ProjectInfo) (f : IFilters),
      (d.foldl buildStep f).target_audience
        = d.foldl (fun m c => addValues m c.target_audience)
            f.target_audience
  | [], _ => rfl
  | r :: t, f => foldl_buildStep_audience t (buildStep f r)

/-- The `ecosystem` component of the record fold only depends on the
`ecosystem` fields. -/
theorem foldl_buildStep_ecosystem :
    ∀ (d : List ProjectInfo) (f : IFilters),
      (d.foldl buildStep f).ecosystem
        = d.foldl (fun m c => addEcosystemValues m c.ecosystem) f.ecosystem
  | [], _ => rfl
  | r :: t, f => foldl_buildStep_ecosystem t (buildStep f r)

/-- Key list of a whole-dataset fold of `addValues` over any field
selector: first-occurrence insertion of the flattened truthy values. -/
theorem keysOf_foldl_addValues (sel : ProjectInfo → Option (List String)) :
    ∀ (d : List ProjectInfo) (m : FilterMap),
      keysOf (d.foldl (fun acc c => addValues acc (sel c)) m)
        = ((d.map (fun r => ((sel r).getD []).filter truthyStr)).flatten).foldl
            insertNew (keysOf m)
  | [], _ => rfl
  | r :: t, m => by
      rw [List.foldl_cons, keysOf_foldl_addValues sel t _, keysOf_addValues,
        List.map_cons, List.flatten_cons, List.foldl_append]

/-- Key list of a whole-dataset fold of `addEcosystemValues`. -/
theorem keysOf_foldl_addEcosystemValues :
    ∀ (d : List ProjectInfo) (m : FilterMap),
      keysOf (d.foldl (fun acc c => addEcosystemValues acc c.ecosystem) m)
        = (ecoVals d).foldl insertNew (keysOf m)
  | [], _ => rfl
  | r :: t, m => by
      rw [List.foldl_cons, keysOf_foldl_addEcosystemValues t _,
        keysOf_addEcosystemValues,
        show ecoVals (r :: t)
            = (r.ecosystem.getD []).filter
                (fun l => truthyStr l && ecoAllowed l) ++ ecoVals t
          by simp [ecoVals],
        List.foldl_append]

/-- Membership after first-occurrence insertion folding. -/
theorem mem_foldl_insertNew :
    ∀ (xs acc : List String) (a : String),
      a ∈ xs.foldl insertNew acc ↔ a ∈ acc ∨ a ∈ xs
  | [], acc, a => by simp
  | x :: t, acc, a => by
      rw [List.foldl_cons, mem_foldl_insertNew t (insertNew acc x) a]
      unfold insertNew
      by_cases h : x ∈ acc
      · rw [if_pos h]
        constructor
        · rintro (ha | ht)
          · exact Or.inl ha
          · exact Or.inr (List.mem_cons.mpr (Or.inr ht))
        · rintro (ha | hxt)
          · exact Or.inl ha
          · rcases List.mem_cons.mp hxt with rfl | ht
            · exact Or.inl h
            · exact Or.inr ht
      · rw [if_neg h]
        simp only [List.mem_append, List.mem_singleton, List.mem_cons]
        tauto

/-! ### C6 — the ecosystem facet honours the allow-list -/

/-- C6: a value appears as an ecosystem facet key (hence as an
ecosystem Filter State key) iff it is non-empty, belongs to the fixed
allow-list, and occurs in some record's ecosystem set; and `"Ethereum"`
is not in the allow-list, so it never becomes a facet entry. -/
theorem ecosystem_facet_allowlist :
    (∀ (d : List ProjectInfo) (v : String),
        v ∈ keysOf (buildFilters d).ecosystem ↔
          v ≠ "" ∧ v ∈ allowedEcosystems ∧
            ∃ r ∈ d, ∃ vs, r.ecosystem = some vs ∧ v ∈ vs) ∧
      "Ethereum" ∉ allowedEcosystems := by
  refine ⟨fun d v => ?_, by decide⟩
  rw [show (buildFilters d).ecosystem
      = d.foldl (fun m c => addEcosystemValues m c.ecosystem) []
    from foldl_buildStep_ecosystem d _]
  rw [keysOf_foldl_addEcosystemValues d [], mem_foldl_insertNew]
  simp only [keysOf, List.map_nil, List.not_mem_nil, false_or]
  unfold ecoVals
  rw [List.mem_flatten]
  constructor
  · rintro ⟨l, hl, hvl⟩
    obtain ⟨r, hr, rfl⟩ := List.mem_map.mp hl
    rw [List.mem_filter] at hvl
    obtain ⟨hv, hcond⟩ := hvl
    rw [Bool.and_eq_true] at hcond
    have hne : v ≠ "" := by simpa [truthyStr] using hcond.1
    have hal : v ∈ allowedEcosystems := by simpa [ecoAllowed] using hcond.2
    refine ⟨hne, hal, r, hr, ?_⟩
    cases hf : r.ecosystem with
    | none => rw [hf] at hv; exact absurd hv (List.not_mem_nil v)
    | some vs => exact ⟨vs, rfl, by rw [hf] at hv; exact hv⟩
  · rintro ⟨hne, hal, r, hr, vs, hf, hv⟩
    refine ⟨(r.ecosystem.getD []).filter
        (fun l => truthyStr l && ecoAllowed l),
      List.mem_map.mpr ⟨r, hr, rfl⟩, ?_⟩
    rw [List.mem_filter]
    refine ⟨by rw [hf]; exact hv, ?_⟩
    rw [Bool.and_eq_true]
    exact ⟨by simpa [truthyStr], by simpa [ecoAllowed]⟩

/-! ### Color-map lookup lemmas -/

/-- Writing a color for `k` makes `k`'s lookup read that color. -/
theorem lookupColor_setColor_self (m : ColorMap) (k v : String) :
    lookupColor (setColor m k v) k = some v := by
  unfold setColor
  by_cases h : m.any (fun p => p.1 == k)
  · rw [if_pos h]
    unfold lookupColor
    rw [List.find?_map]
    have hpred :
        ((fun p : String × String => p.1 == k) ∘
            (fun p : String × String => if p.1 == k then (p.1, v) else p))
          = (fun p : String × String => p.1 == k) := by
      funext p
      by_cases hp : p.1 = k <;> simp [Function.comp, hp]
    rw [hpred]
    obtain ⟨q0, hq0, hq0k⟩ := List.any_eq_true.mp h
    cases hfq : m.find? (fun p : String × String => p.1 == k) with
    | none =>
        rw [List.find?_eq_none] at hfq
        exact absurd hq0k (by simpa using hfq q0 hq0)
    | some q =>
        have hqk := List.find?_some hfq
        have hqe : q.1 = k := by simpa using hqk
        simp [Option.map_map, Function.comp, hqe]
  · rw [if_neg h]
    unfold lookupColor
    rw [List.find?_append]
    have hnone : m.find? (fun p => p.1 == k) = none := by
      rw [List.find?_eq_none]
      intro p hp hpk
      exact h (List.any_eq_true.mpr ⟨p, hp, hpk⟩)
    rw [hnone]
    simp

/-- Writing a color for `k` leaves other keys' lookups unchanged. -/
theorem lookupColor_setColor_of_ne (m : ColorMap) (k v k' : String)
    (h : k' ≠ k) : lookupColor (setColor m k v) k' = lookupColor m k' := by
  unfold setColor
  by_cases hm : m.any (fun p => p.1 == k)
  · rw [if_pos hm]
    unfold lookupColor
    rw [List.find?_map]
    have hpred :
        ((fun p : String × String => p.1 == k') ∘
            (fun p : String × String => if p.1 == k then (p.1, v) else p))
          = (fun p : String × String => p.1 == k') := by
      funext p
      by_cases hp : p.1 = k <;> simp [Function.comp, hp]
    rw [hpred]
    cases hq : m.find? (fun p => p.1 == k') with
    | none => rfl
    | some q =>
        have hqk := List.find?_some hq
        have hqe : q.1 = k' := by simpa using hqk
        have hqne : ¬ q.1 = k := fun hc => h (by rw [← hqe, hc])
        simp [Option.map_map, Function.comp, hqne]
  · rw [if_neg hm]
    unfold lookupColor
    rw [List.find?_append]
    have hone : List.find? (fun p : String × String => p.1 == k') [(k, v)]
        = none := by
      rw [List.find?_eq_none]
      intro p hp
      rcases List.mem_singleton.mp hp with rfl
      simpa using fun hc => h hc.symm
    rw [hone]
    cases m.find? (fun p => p.1 == k') <;> rfl

/-- Assigning colors to a key sequence that does not contain `k` leaves
`k`'s lookup unchanged. -/
theorem lookupColor_assignColors_of_not_mem (palette : List (List Nat)) :
    ∀ (ks : List String) (start : Nat) (m : ColorMap) (k : String),
      k ∉ ks →
      lookupColor (assignColors palette start m ks) k = lookupColor m k
  | [], _, _, _, _ => rfl
  | x :: t, start, m, k, h => by
      rw [assignColors,
        lookupColor_assignColors_of_not_mem palette t (start + 1) _ k
          (fun ht => h (List.mem_cons.mpr (Or.inr ht)))]
      exact lookupColor_setColor_of_ne m x _ k
        (fun he => h (List.mem_cons.mpr (Or.inl he)))

/-- On a duplicate-free key sequence, the traversal assigns key `i` the
palette entry at index `start + i`. -/
theorem lookupColor_assignColors (palette : List (List Nat)) :
    ∀ (ks : List String) (start : Nat) (m : ColorMap), ks.Nodup →
      ∀ (i : Nat) (hi : i < ks.length),
        lookupColor (assignColors palette start m ks) (ks.get ⟨i, hi⟩)
          = some (joinComma (colorAt palette (start + i)))
  | [], _, _, _, i, hi => absurd hi (Nat.not_lt_zero i)
  | x :: t, start, m, hnd, 0, _ => by
      show lookupColor
          (assignColors palette (start + 1)
            (setColor m x (joinComma (colorAt palette start))) t) x
        = some (joinComma (colorAt palette (start + 0)))
      rw [lookupColor_assignColors_of_not_mem palette t (start + 1) _ x
          (List.nodup_cons.mp hnd).1,
        lookupColor_setColor_self, Nat.add_zero]
  | x :: t, start, m, hnd, i + 1, hi => by
      rw [assignColors]
      have hrec := lookupColor_assignColors palette t (start + 1)
        (setColor m x (joinComma (colorAt palette start)))
        (List.nodup_cons.mp hnd).2 i (Nat.lt_of_succ_lt_succ hi)
      rw [show (x :: t).get ⟨i + 1, hi⟩
          = t.get ⟨i, Nat.lt_of_succ_lt_succ hi⟩ from rfl]
      rw [hrec]
      have harith : start + 1 + i = start + (i + 1) := by omega
      rw [harith]

/-- The color traversal of the loaded facets lists each dimension's
values in first-occurrence order, dimensions in the order category,
layer, audience, ecosystem. -/
theorem colorTraversal_buildFilters (d : List ProjectInfo) :
    colorTraversal (buildFilters d)
      = firstOccList (catVals d) ++ firstOccList (layerVals d) ++
        firstOccList (audVals d) ++ firstOccList (ecoVals d) := by
  unfold colorTraversal buildFilters firstOccList
  rw [foldl_buildStep_category, foldl_buildStep_layer,
    foldl_buildStep_audience, foldl_buildStep_ecosystem,
    keysOf_foldl_addValues (fun r => r.category),
    keysOf_foldl_addValues (fun r => r.layer),
    keysOf_foldl_addValues (fun r => r.target_audience),
    keysOf_foldl_addEcosystemValues]
  rfl

/-! ### C4 — color assignment order -/

/-- C4 counterexample: with records carrying categories `EVM` then
`DeFi`, the code colors `EVM` with palette entry 0 and `DeFi` with
palette entry 1 — first-occurrence order, not the alphabetical order the
claim states (which would give `DeFi`, the alphabetically smaller value,
entry 0). -/
theorem color_not_alphabetical :
    lookupColor (buildColorMap colorsPalette (buildFilters [recEVM, recDeFi]))
          "DeFi"
        ≠ some (joinComma (colorAt colorsPalette 0)) ∧
      lookupColor
          (buildColorMap colorsPalette (buildFilters [recEVM, recDeFi]))
          "DeFi"
        = some (joinComma (colorAt colorsPalette 1)) ∧
      lookupColor
          (buildColorMap colorsPalette (buildFilters [recEVM, recDeFi]))
          "EVM"
        = some (joinComma (colorAt colorsPalette 0)) ∧
      "DeFi".data < "EVM".data := by
  decide

/-- C4 (amended): the color assignment traverses facet values in the
fixed dimension order category, then layer, then audience, then
ecosystem, with each dimension's values in first-occurrence order of the
record traversal (the insertion order of `Object.keys`), and assigns the
value at traversal index `i` the palette entry at `i` modulo the palette
size. -/
theorem color_assignment_traversal (palette : List (List Nat))
    (d : List ProjectInfo) (h : (colorTraversal (buildFilters d)).Nodup) :
    (∀ (i : Nat) (hi : i < (colorTraversal (buildFilters d)).length),
        lookupColor (buildColorMap palette (buildFilters d))
            ((colorTraversal (buildFilters d)).get ⟨i, hi⟩)
          = some (joinComma (colorAt palette i))) ∧
      colorTraversal (buildFilters d)
        = firstOccList (catVals d) ++ firstOccList (layerVals d) ++
            firstOccList (audVals d) ++ firstOccList (ecoVals d) := by
  refine ⟨fun i hi => ?_, colorTraversal_buildFilters d⟩
  have := lookupColor_assignColors palette (colorTraversal (buildFilters d))
    0 [] h i hi
  rw [Nat.zero_add] at this
  exact this

/-- Witness for the amended C4 on a concrete dataset and the modelled
palette. -/
theorem color_assignment_traversal_witness :
    (∀ (i : Nat)
        (hi : i < (colorTraversal (buildFilters [recDeFi, recEVM])).length),
        lookupColor (buildColorMap colorsPalette (buildFilters [recDeFi, recEVM]))
            ((colorTraversal (buildFilters [recDeFi, recEVM])).get ⟨i, hi⟩)
          = some (joinComma (colorAt colorsPalette i))) ∧
      colorTraversal (buildFilters [recDeFi, recEVM])
        = firstOccList (catVals [recDeFi, recEVM]) ++
            firstOccList (layerVals [recDeFi, recEVM]) ++
            firstOccList (audVals [recDeFi, recEVM]) ++
            firstOccList (ecoVals [recDeFi, recEVM]) :=
  color_assignment_traversal colorsPalette [recDeFi, recEVM] (by decide)

end EcoMap
